import Mathlib

/-!
# MockTranscript (barretenberg/commitment_schemes/ipa/mock_transcript.hpp)

A shallow embedding of the class `bb::MockTranscript` and a verification of
its documented behaviour.

Modelling conventions.

* The object is a record; every member function is a function from the record
  to the new record (and the returned value, when there is one).
* `std::vector<X>` is `List X`; `push_back` appends at the end.
* `size_t` indices are `Nat`.  The only arithmetic on them is `++`, executed
  after an `ASSERT(index < size)`, so the increment never wraps.
* `uint256_t` is the type of naturals below `2 ^ 256`.
* The types `bb::curve::Grumpkin::AffineElement`, `ScalarField`, `BaseField`
  come from headers outside this file.  They are type parameters `G`, `Fr`,
  `Fq`; the conversions that the C++ performs on them (`static_cast`,
  converting constructors) are function parameters.
-/

namespace bb

/-- The 256-bit unsigned integer type `uint256_t`. -/
abbrev uint256_t : Type := Fin (2 ^ 256)

/-- The data members of `class MockTranscript`, with their default member
initialisers (`G` is `bb::curve::Grumpkin::AffineElement`). -/
structure MockTranscript (G : Type) where
  /-- Vector of challenges sent to the verifier. -/
  challenges : List uint256_t := []
  /-- Vector of group elements received from the prover / sent to the verifier. -/
  group_elements : List G := []
  /-- Vector of field elements received from the prover / sent to the verifier. -/
  field_elements : List uint256_t := []
  current_challenge_index : Nat := 0
  current_field_index : Nat := 0
  current_group_index : Nat := 0
deriving DecidableEq, Repr

namespace MockTranscript

variable {G T Fr Fq : Type}

/-- A freshly constructed transcript: empty vectors, all indices zero. -/
def fresh : MockTranscript G := {}

/-- The member function `void initialize(challenges_, group_elements_ = {}, field_elements_ = {})`
(the name carries a trailing underscore because the plain word is reserved in Lean). -/
def initialize_ (challenges_ : List uint256_t) (group_elements_ : List G := [])
    (field_elements_ : List uint256_t := []) (t : MockTranscript G) : MockTranscript G :=
  let t := { t with challenges := challenges_ }
  let t := { t with current_challenge_index := 0 }
  let t := { t with current_field_index := 0 }
  let t := { t with current_group_index := 0 }
  let t := { t with group_elements := group_elements_ }
  { t with field_elements := field_elements_ }

/-- `void reset_indices()`: the three assignments of the body, in order. -/
def reset_indices (t : MockTranscript G) : MockTranscript G :=
  let t := { t with current_challenge_index := 0 }
  let t := { t with current_field_index := 0 }
  { t with current_challenge_index := 0 }

/-- The argument of one instantiation `send_to_verifier<T>`: either `T` is
`AffineElement` (the `if constexpr` branch), or `T` is some other type that
converts to `uint256_t` (the `else` branch). -/
inductive Element (G T : Type) where
  | AffineElement (element : G)
  | other (element : T)
deriving DecidableEq, Repr

/-- `template <typename T> void send_to_verifier(const std::string&, const T& element)`;
`cast` is `static_cast<uint256_t>` on `T`. -/
def send_to_verifier (cast : T → uint256_t) (_label : String) (element : Element G T)
    (t : MockTranscript G) : MockTranscript G :=
  match element with
  | .AffineElement e => { t with group_elements := t.group_elements ++ [e] }
  | .other e => { t with field_elements := t.field_elements ++ [cast e] }

/-- Modelled from the spec: the `ASSERT` macro is defined in a header outside
this file.  Per the spec a violated assertion is a fatal precondition
violation that ends the call, so `ASSERT c` yields no result when `c` is
false, and a proof of `c` for the statements that follow when `c` is true. -/
def ASSERT (c : Prop) [Decidable c] : Option (PLift c) :=
  if h : c then some ⟨h⟩ else none

/-- `template <typename T> T get_challenge(const std::string&)`; `cast` is
`static_cast<T>` on `uint256_t`. -/
def get_challenge (cast : uint256_t → T) (_label : String) (t : MockTranscript G) :
    Option (T × MockTranscript G) := do
  let h ← ASSERT (t.current_challenge_index < t.challenges.length)
  let result := cast (t.challenges.get ⟨t.current_challenge_index, h.down⟩)
  let t := { t with current_challenge_index := t.current_challenge_index + 1 }
  return (result, t)

/-- The template argument of `receive_from_prover<T>`: the three types for
which the body returns a value. -/
inductive RecvType where
  | ScalarField
  | BaseField
  | AffineElement
deriving DecidableEq, Repr

/-- The value returned by `receive_from_prover<T>`, tagged by `T`. -/
inductive Received (G Fr Fq : Type) where
  | ScalarField (value : Fr)
  | BaseField (value : Fq)
  | AffineElement (value : G)
deriving DecidableEq, Repr

/-- `template <typename T> T receive_from_prover(const std::string&)`; `toFr`
and `toFq` are the conversions from `uint256_t` that `return` applies when `T`
is the scalar or the base field.  The first `if constexpr` block is taken for
`ScalarField` and `BaseField`, the second for `AffineElement`. -/
def receive_from_prover (toFr : uint256_t → Fr) (toFq : uint256_t → Fq) (_label : String)
    (T : RecvType) (t : MockTranscript G) : Option (Received G Fr Fq × MockTranscript G) :=
  match T with
  | .ScalarField => do
    let h ← ASSERT (t.field_elements.length > t.current_field_index)
    let value := t.field_elements.get ⟨t.current_field_index, h.down⟩
    let t := { t with current_field_index := t.current_field_index + 1 }
    return (.ScalarField (toFr value), t)
  | .BaseField => do
    let h ← ASSERT (t.field_elements.length > t.current_field_index)
    let value := t.field_elements.get ⟨t.current_field_index, h.down⟩
    let t := { t with current_field_index := t.current_field_index + 1 }
    return (.BaseField (toFq value), t)
  | .AffineElement => do
    let h ← ASSERT (t.group_elements.length > t.current_group_index)
    let value := t.group_elements.get ⟨t.current_group_index, h.down⟩
    let t := { t with current_group_index := t.current_group_index + 1 }
    return (.AffineElement value, t)

/-- The identity conversion: the instantiation in which the requested (or sent)
type is `uint256_t` itself. -/
abbrev asUint256 : uint256_t → uint256_t := id

/-- Successive `get_challenge<T>` calls, one per label, in order; the run
fails as soon as one call fails, otherwise it returns the values in call order
and the final state. -/
def get_challenges (cast : uint256_t → T) :
    List String → MockTranscript G → Option (List T × MockTranscript G)
  | [], t => some ([], t)
  | label :: labels, t =>
    match get_challenge cast label t with
    | none => none
    | some (r, t1) =>
      match get_challenges cast labels t1 with
      | none => none
      | some (rs, t2) => some (r :: rs, t2)

/-- Successive `send_to_verifier` calls, one per (label, element) pair, in order. -/
def send_all (cast : T → uint256_t) :
    List (String × Element G T) → MockTranscript G → MockTranscript G
  | [], t => t
  | (label, element) :: rest, t => send_all cast rest (send_to_verifier cast label element t)

/-- Successive `receive_from_prover<T>` calls, one per (label, `T`) pair, in
order; the run fails as soon as one call fails, otherwise it returns the
values in call order and the final state. -/
def receive_all (toFr : uint256_t → Fr) (toFq : uint256_t → Fq) :
    List (String × RecvType) → MockTranscript G →
      Option (List (Received G Fr Fq) × MockTranscript G)
  | [], t => some ([], t)
  | (label, ty) :: rest, t =>
    match receive_from_prover toFr toFq label ty t with
    | none => none
    | some (r, t1) =>
      match receive_all toFr toFq rest t1 with
      | none => none
      | some (rs, t2) => some (r :: rs, t2)

/-- The non-group values among the sent messages, in sending order. -/
def sent_fields : List (String × Element G T) → List T
  | [] => []
  | (_, .other x) :: rest => x :: sent_fields rest
  | (_, .AffineElement _) :: rest => sent_fields rest

/-- The group elements among the sent messages, in sending order. -/
def sent_groups : List (String × Element G T) → List G
  | [] => []
  | (_, .other _) :: rest => sent_groups rest
  | (_, .AffineElement g) :: rest => g :: sent_groups rest

/-- The template argument under which a received value was returned. -/
def Received.type : Received G Fr Fq → RecvType
  | .ScalarField _ => .ScalarField
  | .BaseField _ => .BaseField
  | .AffineElement _ => .AffineElement

/-- The field values among the received values, in receiving order. -/
def received_fields : List (Received G Fr Fq) → List (Fr ⊕ Fq)
  | [] => []
  | .ScalarField x :: rest => Sum.inl x :: received_fields rest
  | .BaseField x :: rest => Sum.inr x :: received_fields rest
  | .AffineElement _ :: rest => received_fields rest

/-- The group elements among the received values, in receiving order. -/
def received_groups : List (Received G Fr Fq) → List G
  | [] => []
  | .ScalarField _ :: rest => received_groups rest
  | .BaseField _ :: rest => received_groups rest
  | .AffineElement g :: rest => g :: received_groups rest

/-- The two template arguments handled by the first branch of
`receive_from_prover<T>` (the field branch). -/
inductive FieldType where
  | ScalarField
  | BaseField
deriving DecidableEq, Repr

/-- A field type as a template argument of `receive_from_prover<T>`. -/
def FieldType.toRecvType : FieldType → RecvType
  | .ScalarField => .ScalarField
  | .BaseField => .BaseField

/-- The value `receive_from_prover<T>` returns for a field type `T` when the
entry it reads from the field log is `x`: the conversion of `x` to `T`. -/
def FieldType.convert (toFr : uint256_t → Fr) (toFq : uint256_t → Fq) :
    FieldType → uint256_t → Received G Fr Fq
  | .ScalarField, x => .ScalarField (toFr x)
  | .BaseField, x => .BaseField (toFq x)

/-- One call on the transcript.  The conversions used by the templated member
functions are part of the call, so every instantiation is covered. -/
inductive Op (G : Type) : Type 1 where
  | initialize_ (challenges_ : List uint256_t) (group_elements_ : List G)
      (field_elements_ : List uint256_t)
  | reset_indices
  | send_to_verifier {T : Type} (cast : T → uint256_t) (label : String) (element : Element G T)
  | get_challenge {T : Type} (cast : uint256_t → T) (label : String)
  | receive_from_prover {Fr Fq : Type} (toFr : uint256_t → Fr) (toFq : uint256_t → Fq)
      (label : String) (ty : RecvType)

/-- The state after one call, or `none` when the call fails its `ASSERT`. -/
def Op.step : Op G → MockTranscript G → Option (MockTranscript G)
  | .initialize_ cs gs fs, t => some (MockTranscript.initialize_ cs gs fs t)
  | .reset_indices, t => some (MockTranscript.reset_indices t)
  | .send_to_verifier cast label element, t =>
    some (MockTranscript.send_to_verifier cast label element t)
  | .get_challenge cast label, t =>
    (MockTranscript.get_challenge cast label t).map Prod.snd
  | .receive_from_prover toFr toFq label ty, t =>
    (MockTranscript.receive_from_prover toFr toFq label ty t).map Prod.snd

/-- The state after a sequence of calls, all of which succeed; `none` when
one of them fails. -/
def run : List (Op G) → MockTranscript G → Option (MockTranscript G)
  | [], t => some t
  | op :: ops, t =>
    match op.step t with
    | none => none
    | some t1 => run ops t1

/-- Every cursor is at most the length of its vector. -/
def cursors_in_bounds (t : MockTranscript G) : Prop :=
  t.current_challenge_index ≤ t.challenges.length ∧
  t.current_field_index ≤ t.field_elements.length ∧
  t.current_group_index ≤ t.group_elements.length

/-- Whether the call is `initialize`. -/
def Op.isInit : Op G → Bool
  | .initialize_ _ _ _ => true
  | _ => false

/-- Whether the call is `send_to_verifier`. -/
def Op.isSend : Op G → Bool
  | .send_to_verifier _ _ _ => true
  | _ => false

/-- Whether the call is `reset_indices`. -/
def Op.isReset : Op G → Bool
  | .reset_indices => true
  | _ => false

/-- Whether the call is `receive_from_prover<AffineElement>`. -/
def Op.isGroupReceive : Op G → Bool
  | .receive_from_prover _ _ _ .AffineElement => true
  | _ => false

/-- The positions of the group log read by the successful group receives of a
sequence of calls, in call order (the sequence stops at the first failing
call). -/
def group_reads : List (Op G) → MockTranscript G → List Nat
  | [], _ => []
  | op :: ops, t =>
    match op.step t with
    | none => []
    | some t1 =>
      if op.isGroupReceive then t.current_group_index :: group_reads ops t1
      else group_reads ops t1

/-! ## Auxiliary lemmas -/

theorem get_challenge_eq (cast : uint256_t → T) (label : String) (t : MockTranscript G) :
    get_challenge cast label t
      = if h : t.current_challenge_index < t.challenges.length then
          some (cast t.challenges[t.current_challenge_index],
            { t with current_challenge_index := t.current_challenge_index + 1 })
        else none := by
  unfold get_challenge ASSERT
  split <;> rfl

theorem receive_scalar_eq (toFr : uint256_t → Fr) (toFq : uint256_t → Fq) (label : String)
    (t : MockTranscript G) :
    receive_from_prover toFr toFq label .ScalarField t
      = if h : t.current_field_index < t.field_elements.length then
          some (.ScalarField (toFr t.field_elements[t.current_field_index]),
            { t with current_field_index := t.current_field_index + 1 })
        else none := by
  simp only [receive_from_prover, ASSERT]
  split <;> rfl

theorem receive_base_eq (toFr : uint256_t → Fr) (toFq : uint256_t → Fq) (label : String)
    (t : MockTranscript G) :
    receive_from_prover toFr toFq label .BaseField t
      = if h : t.current_field_index < t.field_elements.length then
          some (.BaseField (toFq t.field_elements[t.current_field_index]),
            { t with current_field_index := t.current_field_index + 1 })
        else none := by
  simp only [receive_from_prover, ASSERT]
  split <;> rfl

theorem receive_group_eq (toFr : uint256_t → Fr) (toFq : uint256_t → Fq) (label : String)
    (t : MockTranscript G) :
    receive_from_prover toFr toFq label .AffineElement t
      = (if h : t.current_group_index < t.group_elements.length then
          some (.AffineElement t.group_elements[t.current_group_index],
            { t with current_group_index := t.current_group_index + 1 })
        else none : Option (Received G Fr Fq × MockTranscript G)) := by
  simp only [receive_from_prover, ASSERT]
  split <;> rfl

theorem of_drop_eq_cons {α : Type} (l : List α) (i : Nat) (x : α) (r : List α)
    (h : l.drop i = x :: r) :
    ∃ hi : i < l.length, l[i] = x ∧ l.drop (i + 1) = r := by
  have hi : i < l.length := by
    by_contra hc
    rw [List.drop_of_length_le (Nat.le_of_not_lt hc)] at h
    cases h
  refine ⟨hi, ?_⟩
  rw [List.drop_eq_getElem_cons hi] at h
  injection h with h1 h2
  exact ⟨h1, h2⟩

theorem get_challenge_of_drop (cast : uint256_t → T) (label : String) (t : MockTranscript G)
    (x : uint256_t) (r : List uint256_t)
    (h : t.challenges.drop t.current_challenge_index = x :: r) :
    get_challenge cast label t
      = some (cast x, { t with current_challenge_index := t.current_challenge_index + 1 }) := by
  obtain ⟨hi, hx, _⟩ := of_drop_eq_cons _ _ _ _ h
  simp [get_challenge_eq, hi, hx]

theorem get_challenge_eq_none_iff (cast : uint256_t → T) (label : String)
    (t : MockTranscript G) :
    get_challenge cast label t = none ↔ t.challenges.length ≤ t.current_challenge_index := by
  rw [get_challenge_eq]
  split <;> simp <;> omega

theorem get_challenges_of_drop (cast : uint256_t → T) :
    ∀ (labels : List String) (xs rest : List uint256_t) (t : MockTranscript G),
      labels.length = xs.length →
      t.challenges.drop t.current_challenge_index = xs ++ rest →
      get_challenges cast labels t
        = some (xs.map cast,
            { t with current_challenge_index := t.current_challenge_index + xs.length })
  | [], xs, rest, t, hlen, _ => by
    have : xs = [] := List.length_eq_zero.mp hlen.symm
    subst this
    simp [get_challenges]
  | label :: labels, [], rest, t, hlen, _ => by simp at hlen
  | label :: labels, x :: xs, rest, t, hlen, hd => by
    have hd1 : t.challenges.drop t.current_challenge_index = x :: (xs ++ rest) := by simpa using hd
    obtain ⟨_, _, hd2⟩ := of_drop_eq_cons _ _ _ _ hd1
    have ih := get_challenges_of_drop cast labels xs rest
      { t with current_challenge_index := t.current_challenge_index + 1 }
      (by simpa using hlen) hd2
    rw [get_challenges, get_challenge_of_drop cast label t x _ hd1]
    simp only [ih]
    simp [Nat.add_assoc, Nat.add_comm 1]

/-! ## C1: challenges come back in the order supplied -/

/-- C1. After `initialize(cs, gs, fs)` on any transcript, `cs.size()` successive
`get_challenge` calls (whatever their labels) all succeed and return the
conversions of `cs[0], cs[1], ...` in that order, and one further
`get_challenge` call fails. -/
theorem get_challenge_after_initialize (cast : uint256_t → T) (cs : List uint256_t)
    (gs : List G) (fs : List uint256_t) (s : MockTranscript G) (labels : List String)
    (extra : String) (hlen : labels.length = cs.length) :
    ∃ t : MockTranscript G,
      get_challenges cast labels (initialize_ cs gs fs s) = some (cs.map cast, t) ∧
      get_challenge cast extra t = none := by
  refine ⟨{ initialize_ cs gs fs s with current_challenge_index := cs.length }, ?_, ?_⟩
  · have h := get_challenges_of_drop cast labels cs [] (initialize_ cs gs fs s) hlen
      (by simp [initialize_])
    rw [h]
    simp [initialize_]
  · rw [get_challenge_eq_none_iff]
    simp [initialize_]

/-- Scenario A: `initialize([10, 20, 30])`, then three calls return 10, 20, 30
and a fourth call fails. -/
theorem get_challenge_after_initialize_witness :
    ["a", "b", "c"].length = [(10 : uint256_t), 20, 30].length ∧
    ∃ t : MockTranscript Nat,
      get_challenges id ["a", "b", "c"] (initialize_ [10, 20, 30] [] [] fresh)
        = some ([10, 20, 30].map id, t) ∧
      get_challenge id "d" t = none :=
  ⟨rfl, get_challenge_after_initialize id [10, 20, 30] [] [] fresh ["a", "b", "c"] "d" rfl⟩

/-! ## C2: record / replay symmetry -/

theorem send_all_eq (cast : T → uint256_t) :
    ∀ (msgs : List (String × Element G T)) (t : MockTranscript G),
      send_all cast msgs t
        = { t with group_elements := t.group_elements ++ sent_groups msgs
                   field_elements := t.field_elements ++ (sent_fields msgs).map cast }
  | [], t => by simp [send_all, sent_groups, sent_fields]
  | (label, .other x) :: rest, t => by
    rw [send_all, send_all_eq cast rest]
    simp [send_to_verifier, sent_groups, sent_fields]
  | (label, .AffineElement g) :: rest, t => by
    rw [send_all, send_all_eq cast rest]
    simp [send_to_verifier, sent_groups, sent_fields]

theorem receive_scalar_of_drop (toFr : uint256_t → Fr) (toFq : uint256_t → Fq)
    (label : String) (t : MockTranscript G) (x : uint256_t) (r : List uint256_t)
    (h : t.field_elements.drop t.current_field_index = x :: r) :
    receive_from_prover toFr toFq label .ScalarField t
      = some (.ScalarField (toFr x),
          { t with current_field_index := t.current_field_index + 1 }) := by
  obtain ⟨hi, hx, _⟩ := of_drop_eq_cons _ _ _ _ h
  simp [receive_scalar_eq, hi, hx]

theorem receive_base_of_drop (toFr : uint256_t → Fr) (toFq : uint256_t → Fq)
    (label : String) (t : MockTranscript G) (x : uint256_t) (r : List uint256_t)
    (h : t.field_elements.drop t.current_field_index = x :: r) :
    receive_from_prover toFr toFq label .BaseField t
      = some (.BaseField (toFq x),
          { t with current_field_index := t.current_field_index + 1 }) := by
  obtain ⟨hi, hx, _⟩ := of_drop_eq_cons _ _ _ _ h
  simp [receive_base_eq, hi, hx]

theorem receive_group_of_drop (toFr : uint256_t → Fr) (toFq : uint256_t → Fq)
    (label : String) (t : MockTranscript G) (g : G) (r : List G)
    (h : t.group_elements.drop t.current_group_index = g :: r) :
    receive_from_prover toFr toFq label .AffineElement t
      = some (.AffineElement g,
          { t with current_group_index := t.current_group_index + 1 }) := by
  obtain ⟨hi, hx, _⟩ := of_drop_eq_cons _ _ _ _ h
  simp [receive_group_eq, hi, hx]

/-- Replaying from the cursors: if the unread part of the field log starts with
the encodings of the field values of `res` and the unread part of the group
log starts with the group elements of `res`, the receive calls typed like
`res` return `res`. -/
theorem receive_all_of_drop (toFr : uint256_t → Fr) (toFq : uint256_t → Fq)
    (frToU : Fr → uint256_t) (fqToU : Fq → uint256_t)
    (hr : ∀ x, toFr (frToU x) = x) (hq : ∀ x, toFq (fqToU x) = x) :
    ∀ (res : List (Received G Fr Fq)) (reqs : List (String × RecvType))
      (t : MockTranscript G) (restF : List uint256_t) (restG : List G),
      reqs.map Prod.snd = res.map Received.type →
      t.field_elements.drop t.current_field_index
        = (received_fields res).map (Sum.elim frToU fqToU) ++ restF →
      t.group_elements.drop t.current_group_index = received_groups res ++ restG →
      receive_all toFr toFq reqs t
        = some (res,
            { t with
              current_field_index := t.current_field_index + (received_fields res).length
              current_group_index := t.current_group_index + (received_groups res).length })
  | [], reqs, t, _, _, hty, _, _ => by
    have : reqs = [] := by simpa using hty
    subst this
    simp [receive_all, received_fields, received_groups]
  | r :: res, [], t, _, _, hty, _, _ => by simp at hty
  | .ScalarField v :: res, (label, ty) :: reqs, t, restF, restG, hty, hf, hg => by
    simp only [List.map_cons, List.cons.injEq, Received.type] at hty
    obtain ⟨hty1, hty2⟩ := hty
    subst hty1
    simp only [received_fields, List.map_cons, Sum.elim_inl, List.cons_append] at hf
    obtain ⟨_, _, hf2⟩ := of_drop_eq_cons _ _ _ _ hf
    have ih := receive_all_of_drop toFr toFq frToU fqToU hr hq res reqs
      { t with current_field_index := t.current_field_index + 1 } restF restG hty2 hf2 hg
    rw [receive_all, receive_scalar_of_drop toFr toFq label t _ _ hf]
    simp only [ih, hr]
    simp [received_fields, received_groups, Nat.add_assoc, Nat.add_comm 1]
  | .BaseField v :: res, (label, ty) :: reqs, t, restF, restG, hty, hf, hg => by
    simp only [List.map_cons, List.cons.injEq, Received.type] at hty
    obtain ⟨hty1, hty2⟩ := hty
    subst hty1
    simp only [received_fields, List.map_cons, Sum.elim_inr, List.cons_append] at hf
    obtain ⟨_, _, hf2⟩ := of_drop_eq_cons _ _ _ _ hf
    have ih := receive_all_of_drop toFr toFq frToU fqToU hr hq res reqs
      { t with current_field_index := t.current_field_index + 1 } restF restG hty2 hf2 hg
    rw [receive_all, receive_base_of_drop toFr toFq label t _ _ hf]
    simp only [ih, hq]
    simp [received_fields, received_groups, Nat.add_assoc, Nat.add_comm 1]
  | .AffineElement g :: res, (label, ty) :: reqs, t, restF, restG, hty, hf, hg => by
    simp only [List.map_cons, List.cons.injEq, Received.type] at hty
    obtain ⟨hty1, hty2⟩ := hty
    subst hty1
    simp only [received_groups, List.cons_append] at hg
    obtain ⟨_, _, hg2⟩ := of_drop_eq_cons _ _ _ _ hg
    have ih := receive_all_of_drop toFr toFq frToU fqToU hr hq res reqs
      { t with current_group_index := t.current_group_index + 1 } restF restG hty2 hf hg2
    rw [receive_all, receive_group_of_drop toFr toFq label t _ _ hg]
    simp only [ih]
    simp [received_fields, received_groups, Nat.add_assoc, Nat.add_comm 1]

/-- C2. Record/replay symmetry.  Start from a transcript whose two logs are
empty and whose group cursor is zero (a fresh one, or one initialised without
preset logs); send any interleaving of scalar-field, base-field and group
values; call `reset_indices`.  Assume both field types round-trip through
`uint256_t`.  Then for every list `res` of values whose field values are the
sent field values in sending order and whose group elements are the sent
group elements in sending order (any interleaving of the two channels), the
receive calls typed like `res` succeed and return exactly `res`. -/
theorem record_replay_symmetry (toFr : uint256_t → Fr) (toFq : uint256_t → Fq)
    (frToU : Fr → uint256_t) (fqToU : Fq → uint256_t)
    (hr : ∀ x, toFr (frToU x) = x) (hq : ∀ x, toFq (fqToU x) = x)
    (t0 : MockTranscript G) (hg0 : t0.group_elements = []) (hf0 : t0.field_elements = [])
    (hgi : t0.current_group_index = 0)
    (msgs : List (String × Element G (Fr ⊕ Fq))) (reqs : List (String × RecvType))
    (res : List (Received G Fr Fq))
    (hty : reqs.map Prod.snd = res.map Received.type)
    (hfields : received_fields res = sent_fields msgs)
    (hgroups : received_groups res = sent_groups msgs) :
    (receive_all toFr toFq reqs
        (reset_indices (send_all (Sum.elim frToU fqToU) msgs t0))).map Prod.fst
      = some res := by
  have h := receive_all_of_drop toFr toFq frToU fqToU hr hq res reqs
    (reset_indices (send_all (Sum.elim frToU fqToU) msgs t0)) [] [] hty
    (by simp [send_all_eq, reset_indices, hf0, hfields])
    (by simp [send_all_eq, reset_indices, hg0, hgi, hgroups])
  rw [h]
  rfl

/-- Scenario B: send field 5, send group P, `reset_indices`, receive a field
element (5 comes back), receive a group element (P comes back). -/
theorem record_replay_symmetry_witness :
    (∀ x : uint256_t, id (id x) = x) ∧
    (fresh : MockTranscript (Nat × Nat)).group_elements = [] ∧
    (fresh : MockTranscript (Nat × Nat)).field_elements = [] ∧
    (fresh : MockTranscript (Nat × Nat)).current_group_index = 0 ∧
    (receive_all id id [("x", RecvType.ScalarField), ("y", RecvType.AffineElement)]
        (reset_indices (send_all (Sum.elim id id)
          [("a", Element.other (Sum.inl (5 : uint256_t))), ("b", Element.AffineElement (1, 2))]
          (fresh : MockTranscript (Nat × Nat))))).map Prod.fst
      = some [(Received.ScalarField 5 : Received (Nat × Nat) uint256_t uint256_t),
          Received.AffineElement (1, 2)] :=
  ⟨fun _ => rfl, rfl, rfl, rfl,
    record_replay_symmetry id id id id (fun _ => rfl) (fun _ => rfl) fresh rfl rfl rfl
      [("a", Element.other (Sum.inl 5)), ("b", Element.AffineElement (1, 2))]
      [("x", RecvType.ScalarField), ("y", RecvType.AffineElement)]
      [Received.ScalarField 5, Received.AffineElement (1, 2)] rfl rfl rfl⟩

/-! ## C3, C4: replay after `reset_indices` -/

/-- C3, evaluated on the code.  Send one group element, receive it once, call
`reset_indices`: the next group receive fails, because `reset_indices` assigns
`current_challenge_index` twice and leaves `current_group_index` at 1. -/
theorem reset_indices_keeps_group_index :
    receive_from_prover asUint256 asUint256 "first" .AffineElement
        (send_to_verifier asUint256 "g" (.AffineElement (1, 2))
          (fresh : MockTranscript (Nat × Nat)))
      = some (.AffineElement (1, 2),
          { group_elements := [(1, 2)], current_group_index := 1 }) ∧
    reset_indices ({ group_elements := [(1, 2)], current_group_index := 1 } :
        MockTranscript (Nat × Nat))
      = { group_elements := [(1, 2)], current_group_index := 1 } ∧
    receive_from_prover asUint256 asUint256 "again" .AffineElement
        (reset_indices ({ group_elements := [(1, 2)], current_group_index := 1 } :
          MockTranscript (Nat × Nat)))
      = none := by
  refine ⟨rfl, rfl, rfl⟩

theorem receive_from_prover_eq_none_iff (toFr : uint256_t → Fr) (toFq : uint256_t → Fq)
    (label : String) (t : MockTranscript G) :
    (receive_from_prover toFr toFq label .ScalarField t = none
      ↔ t.field_elements.length ≤ t.current_field_index) ∧
    (receive_from_prover toFr toFq label .BaseField t = none
      ↔ t.field_elements.length ≤ t.current_field_index) ∧
    (receive_from_prover toFr toFq label .AffineElement t = none
      ↔ t.group_elements.length ≤ t.current_group_index) := by
  refine ⟨?_, ?_, ?_⟩
  · rw [receive_scalar_eq]
    split <;> simp <;> omega
  · rw [receive_base_eq]
    split <;> simp <;> omega
  · rw [receive_group_eq]
    split <;> simp <;> omega

theorem receive_fields_of_drop (toFr : uint256_t → Fr) (toFq : uint256_t → Fq) :
    ∀ (reqs : List (String × FieldType)) (xs rest : List uint256_t) (t : MockTranscript G),
      reqs.length = xs.length →
      t.field_elements.drop t.current_field_index = xs ++ rest →
      receive_all toFr toFq (reqs.map fun r => (r.1, r.2.toRecvType)) t
        = some (List.zipWith (fun r x => r.2.convert toFr toFq x) reqs xs,
            { t with current_field_index := t.current_field_index + xs.length })
  | [], xs, rest, t, hlen, _ => by
    have : xs = [] := List.length_eq_zero.mp hlen.symm
    subst this
    simp [receive_all]
  | r :: reqs, [], rest, t, hlen, _ => by simp at hlen
  | (label, ty) :: reqs, x :: xs, rest, t, hlen, hd => by
    have hd1 : t.field_elements.drop t.current_field_index = x :: (xs ++ rest) := by
      simpa using hd
    obtain ⟨_, _, hd2⟩ := of_drop_eq_cons _ _ _ _ hd1
    have ih := receive_fields_of_drop toFr toFq reqs xs rest
      { t with current_field_index := t.current_field_index + 1 }
      (by simpa using hlen) hd2
    cases ty
    · rw [List.map_cons, receive_all, FieldType.toRecvType,
        receive_scalar_of_drop toFr toFq label t x _ hd1]
      simp only [ih]
      simp [FieldType.convert, Nat.add_assoc, Nat.add_comm 1]
    · rw [List.map_cons, receive_all, FieldType.toRecvType,
        receive_base_of_drop toFr toFq label t x _ hd1]
      simp only [ih]
      simp [FieldType.convert, Nat.add_assoc, Nat.add_comm 1]

/-- C4. For every transcript state, after `reset_indices` as many field
receives as the field log has entries (each requested as scalar or base field,
with any labels) all succeed and return the conversions of the entries of the
field log in order from the first entry, and one further field receive
fails. -/
theorem receive_fields_after_reset_indices (toFr : uint256_t → Fr) (toFq : uint256_t → Fq)
    (t : MockTranscript G) (reqs : List (String × FieldType)) (extra : String × FieldType)
    (hlen : reqs.length = t.field_elements.length) :
    ∃ t1 : MockTranscript G,
      receive_all toFr toFq (reqs.map fun r => (r.1, r.2.toRecvType)) (reset_indices t)
        = some (List.zipWith (fun r x => r.2.convert toFr toFq x) reqs t.field_elements, t1) ∧
      receive_from_prover toFr toFq extra.1 extra.2.toRecvType t1 = none := by
  refine ⟨{ reset_indices t with current_field_index := t.field_elements.length }, ?_, ?_⟩
  · have h := receive_fields_of_drop toFr toFq reqs t.field_elements [] (reset_indices t)
      (by simpa [reset_indices] using hlen) (by simp [reset_indices])
    rw [h]
    simp [reset_indices]
  · have h := receive_from_prover_eq_none_iff toFr toFq extra.1
      { reset_indices t with current_field_index := t.field_elements.length }
    cases hx : extra.2
    · rw [FieldType.toRecvType, h.1]
      simp [reset_indices]
    · rw [FieldType.toRecvType, h.2.1]
      simp [reset_indices]

/-- A transcript whose two preset field elements 7 and 8 were already consumed:
after `reset_indices` they are received again, as scalar then base field
element, and a third field receive fails. -/
theorem receive_fields_after_reset_indices_witness :
    [("x", FieldType.ScalarField), ("y", FieldType.BaseField)].length
      = ({ field_elements := [7, 8], current_field_index := 2 } :
          MockTranscript (Nat × Nat)).field_elements.length ∧
    ∃ t1 : MockTranscript (Nat × Nat),
      receive_all asUint256 asUint256
          ([("x", FieldType.ScalarField), ("y", FieldType.BaseField)].map
            fun r => (r.1, r.2.toRecvType))
          (reset_indices { field_elements := [7, 8], current_field_index := 2 })
        = some (List.zipWith (fun r x => r.2.convert asUint256 asUint256 x)
            [("x", FieldType.ScalarField), ("y", FieldType.BaseField)]
            ({ field_elements := [7, 8], current_field_index := 2 } :
              MockTranscript (Nat × Nat)).field_elements, t1) ∧
      receive_from_prover asUint256 asUint256
        ("z", FieldType.ScalarField).1 ("z", FieldType.ScalarField).2.toRecvType t1 = none :=
  ⟨rfl, receive_fields_after_reset_indices asUint256 asUint256
    { field_elements := [7, 8], current_field_index := 2 }
    [("x", FieldType.ScalarField), ("y", FieldType.BaseField)] ("z", FieldType.ScalarField) rfl⟩

/-! ## C5: `initialize` replaces the whole state -/

/-- C5. `initialize(cs, gs, fs)` yields the state with challenges `cs`, group
log `gs`, field log `fs` and all three cursors zero, whatever the prior state;
so it gives the same state from any two prior states, a second `initialize`
erases the first, and omitted logs are empty.  After `initialize([1,2], [],
[7,8])` then `initialize([9])`, `get_challenge` returns 9 and every receive
fails. -/
theorem initialize_replaces_state (cs a : List uint256_t) (gs ga : List G)
    (fs fa : List uint256_t) (s s1 : MockTranscript G)
    (cast : uint256_t → T) (toFr : uint256_t → Fr) (toFq : uint256_t → Fq)
    (label : String) (ty : RecvType) :
    initialize_ cs gs fs s
      = { challenges := cs, group_elements := gs, field_elements := fs,
          current_challenge_index := 0, current_field_index := 0,
          current_group_index := 0 } ∧
    initialize_ cs gs fs s = initialize_ cs gs fs s1 ∧
    initialize_ cs gs fs (initialize_ a ga fa s) = initialize_ cs gs fs s ∧
    initialize_ cs (t := s) = initialize_ cs [] [] s ∧
    get_challenge cast label (initialize_ [9] (t := initialize_ [1, 2] [] [7, 8] s))
      = some (cast 9, { challenges := [9], current_challenge_index := 1 }) ∧
    receive_from_prover toFr toFq label ty
      (initialize_ [9] (t := initialize_ [1, 2] [] [7, 8] s)) = none := by
  refine ⟨rfl, rfl, rfl, rfl, rfl, ?_⟩
  cases ty <;> rfl

/-! ## C6: `reset_indices` -/

/-- C6. `reset_indices` is total; in the state it produces the challenge
cursor and the field cursor are zero, and the group cursor, the challenges,
the group log and the field log are those of the input state. -/
theorem reset_indices_effect (t : MockTranscript G) :
    reset_indices t = { t with current_challenge_index := 0, current_field_index := 0 } ∧
    (reset_indices t).current_challenge_index = 0 ∧
    (reset_indices t).current_field_index = 0 ∧
    (reset_indices t).current_group_index = t.current_group_index ∧
    (reset_indices t).challenges = t.challenges ∧
    (reset_indices t).group_elements = t.group_elements ∧
    (reset_indices t).field_elements = t.field_elements :=
  ⟨rfl, rfl, rfl, rfl, rfl, rfl, rfl⟩

/-! ## C7: `receive_from_prover` -/

/-- C7. A field receive (scalar or base) fails exactly when the field cursor
is at or past the end of the field log, a group receive exactly when the
group cursor is at or past the end of the group log.  A successful receive
returns the entry of its log at the cursor (converted to the requested type)
and advances that cursor by one; nothing else in the state changes. -/
theorem receive_from_prover_spec (toFr : uint256_t → Fr) (toFq : uint256_t → Fq)
    (label : String) (t : MockTranscript G) :
    (receive_from_prover toFr toFq label .ScalarField t = none
      ↔ t.current_field_index ≥ t.field_elements.length) ∧
    (receive_from_prover toFr toFq label .BaseField t = none
      ↔ t.current_field_index ≥ t.field_elements.length) ∧
    (receive_from_prover toFr toFq label .AffineElement t = none
      ↔ t.current_group_index ≥ t.group_elements.length) ∧
    (∀ h : t.current_field_index < t.field_elements.length,
      receive_from_prover toFr toFq label .ScalarField t
        = some (.ScalarField (toFr t.field_elements[t.current_field_index]),
            { challenges := t.challenges, group_elements := t.group_elements,
              field_elements := t.field_elements,
              current_challenge_index := t.current_challenge_index,
              current_field_index := t.current_field_index + 1,
              current_group_index := t.current_group_index })) ∧
    (∀ h : t.current_field_index < t.field_elements.length,
      receive_from_prover toFr toFq label .BaseField t
        = some (.BaseField (toFq t.field_elements[t.current_field_index]),
            { challenges := t.challenges, group_elements := t.group_elements,
              field_elements := t.field_elements,
              current_challenge_index := t.current_challenge_index,
              current_field_index := t.current_field_index + 1,
              current_group_index := t.current_group_index })) ∧
    (∀ h : t.current_group_index < t.group_elements.length,
      receive_from_prover toFr toFq label .AffineElement t
        = some (.AffineElement t.group_elements[t.current_group_index],
            { challenges := t.challenges, group_elements := t.group_elements,
              field_elements := t.field_elements,
              current_challenge_index := t.current_challenge_index,
              current_field_index := t.current_field_index,
              current_group_index := t.current_group_index + 1 })) := by
  have h := receive_from_prover_eq_none_iff toFr toFq label t
  refine ⟨h.1, h.2.1, h.2.2, ?_, ?_, ?_⟩
  · intro hlt
    simp [receive_scalar_eq, hlt]
  · intro hlt
    simp [receive_base_eq, hlt]
  · intro hlt
    simp [receive_group_eq, hlt]

/-- A transcript holding field log [7, 8] with field cursor 1 and group log
[(1, 2)] with group cursor 0: both kinds of receive succeed. -/
theorem receive_from_prover_spec_witness :
    (receive_from_prover asUint256 asUint256 "f" .ScalarField
        ({ field_elements := [7, 8], group_elements := [(1, 2)], current_field_index := 1 } :
          MockTranscript (Nat × Nat))
      = some (.ScalarField 8,
          { field_elements := [7, 8], group_elements := [(1, 2)],
            current_field_index := 2 })) ∧
    (receive_from_prover asUint256 asUint256 "g" .AffineElement
        ({ field_elements := [7, 8], group_elements := [(1, 2)], current_field_index := 1 } :
          MockTranscript (Nat × Nat))
      = some (.AffineElement (1, 2),
          { field_elements := [7, 8], group_elements := [(1, 2)],
            current_field_index := 1, current_group_index := 1 })) :=
  ⟨(receive_from_prover_spec asUint256 asUint256 "f"
      ({ field_elements := [7, 8], group_elements := [(1, 2)], current_field_index := 1 } :
        MockTranscript (Nat × Nat))).2.2.2.1 (by decide),
   (receive_from_prover_spec asUint256 asUint256 "g"
      ({ field_elements := [7, 8], group_elements := [(1, 2)], current_field_index := 1 } :
        MockTranscript (Nat × Nat))).2.2.2.2.2 (by decide)⟩

/-! ## C8: `send_to_verifier` -/

/-- C8. `send_to_verifier` is total and purely additive: a group element is
appended at the end of the group log and the field log is unchanged; any other
value has its `uint256_t` conversion appended at the end of the field log and
the group log is unchanged; the challenges and the three cursors are
unchanged, and the label plays no role. -/
theorem send_to_verifier_spec (cast : T → uint256_t) (label label1 : String)
    (element : Element G T) (g : G) (x : T) (t : MockTranscript G) :
    send_to_verifier cast label (.AffineElement g) t
      = { challenges := t.challenges, group_elements := t.group_elements ++ [g],
          field_elements := t.field_elements,
          current_challenge_index := t.current_challenge_index,
          current_field_index := t.current_field_index,
          current_group_index := t.current_group_index } ∧
    send_to_verifier cast label (.other x) t
      = { challenges := t.challenges, group_elements := t.group_elements,
          field_elements := t.field_elements ++ [cast x],
          current_challenge_index := t.current_challenge_index,
          current_field_index := t.current_field_index,
          current_group_index := t.current_group_index } ∧
    send_to_verifier cast label element t = send_to_verifier cast label1 element t :=
  ⟨rfl, rfl, rfl⟩

/-! ## C9: `get_challenge` and the requested representation -/

/-- C9. For any two requested representations (conversions `cast1`, `cast2`)
and any labels, `get_challenge` fails for both exactly when the challenge
cursor is at or past the end of the challenges; otherwise both calls succeed,
return the two conversions of the same stored value `challenges[cursor]`, and
produce the same successor state: the challenge cursor advanced by one,
everything else unchanged. -/
theorem get_challenge_representation_independent {T1 T2 : Type}
    (cast1 : uint256_t → T1) (cast2 : uint256_t → T2) (label1 label2 : String)
    (t : MockTranscript G) :
    (get_challenge cast1 label1 t = none
      ↔ t.current_challenge_index ≥ t.challenges.length) ∧
    (get_challenge cast2 label2 t = none
      ↔ t.current_challenge_index ≥ t.challenges.length) ∧
    (∀ h : t.current_challenge_index < t.challenges.length,
      get_challenge cast1 label1 t
        = some (cast1 t.challenges[t.current_challenge_index],
            { challenges := t.challenges, group_elements := t.group_elements,
              field_elements := t.field_elements,
              current_challenge_index := t.current_challenge_index + 1,
              current_field_index := t.current_field_index,
              current_group_index := t.current_group_index }) ∧
      get_challenge cast2 label2 t
        = some (cast2 t.challenges[t.current_challenge_index],
            { challenges := t.challenges, group_elements := t.group_elements,
              field_elements := t.field_elements,
              current_challenge_index := t.current_challenge_index + 1,
              current_field_index := t.current_field_index,
              current_group_index := t.current_group_index })) := by
  refine ⟨get_challenge_eq_none_iff cast1 label1 t, get_challenge_eq_none_iff cast2 label2 t, ?_⟩
  intro h
  simp [get_challenge_eq, h]

/-- Challenges [10, 20, 30] with cursor 1: requested as `uint256_t` and as a
residue modulo 7, both calls read the stored value 20 and leave cursor 2. -/
theorem get_challenge_representation_independent_witness :
    get_challenge asUint256 "a"
        ({ challenges := [10, 20, 30], current_challenge_index := 1 } : MockTranscript Nat)
      = some (20, { challenges := [10, 20, 30], current_challenge_index := 2 }) ∧
    get_challenge (fun u : uint256_t => u.val % 7) "b"
        ({ challenges := [10, 20, 30], current_challenge_index := 1 } : MockTranscript Nat)
      = some ((20 : uint256_t).val % 7,
          { challenges := [10, 20, 30], current_challenge_index := 2 }) :=
  (get_challenge_representation_independent asUint256 (fun u : uint256_t => u.val % 7) "a" "b"
    ({ challenges := [10, 20, 30], current_challenge_index := 1 } : MockTranscript Nat)).2.2
    (by decide)

/-! ## C10: cursors stay within bounds -/

theorem cursors_in_bounds_step (op : Op G) (t t1 : MockTranscript G)
    (hinv : cursors_in_bounds t) (hstep : op.step t = some t1) : cursors_in_bounds t1 := by
  obtain ⟨hc, hf, hg⟩ := hinv
  cases op with
  | initialize_ cs gs fs =>
    simp only [Op.step, Option.some.injEq] at hstep
    subst hstep
    simp [cursors_in_bounds, initialize_]
  | reset_indices =>
    simp only [Op.step, Option.some.injEq] at hstep
    subst hstep
    simpa [cursors_in_bounds, reset_indices] using hg
  | send_to_verifier cast label element =>
    simp only [Op.step, Option.some.injEq] at hstep
    subst hstep
    cases element <;> simp [cursors_in_bounds, send_to_verifier] <;> omega
  | get_challenge cast label =>
    simp only [Op.step, get_challenge_eq] at hstep
    split at hstep
    · simp only [Option.map_some', Option.some.injEq] at hstep
      subst hstep
      simp only [cursors_in_bounds]
      omega
    · simp at hstep
  | receive_from_prover toFr toFq label ty =>
    cases ty <;>
      simp only [Op.step, receive_scalar_eq, receive_base_eq, receive_group_eq] at hstep <;>
      split at hstep
    all_goals first
      | (simp only [Option.map_some', Option.some.injEq] at hstep
         subst hstep
         simp only [cursors_in_bounds]
         omega)
      | simp at hstep

theorem cursors_in_bounds_run :
    ∀ (ops : List (Op G)) (t t1 : MockTranscript G),
      cursors_in_bounds t → run ops t = some t1 → cursors_in_bounds t1
  | [], t, t1, hinv, hrun => by
    simp only [run, Option.some.injEq] at hrun
    subst hrun
    exact hinv
  | op :: ops, t, t1, hinv, hrun => by
    rw [run] at hrun
    split at hrun
    · simp at hrun
    · next t2 hstep =>
      exact cursors_in_bounds_run ops t2 t1 (cursors_in_bounds_step op t t2 hinv hstep) hrun

/-- C10. In every state reached from a freshly constructed transcript by a
finite sequence of successful `initialize`, `reset_indices`,
`send_to_verifier`, `get_challenge` and `receive_from_prover` calls, each of
the three cursors is at most the length of its vector. -/
theorem cursors_in_bounds_of_reachable (ops : List (Op G)) (t : MockTranscript G)
    (hrun : run ops fresh = some t) :
    t.current_challenge_index ≤ t.challenges.length ∧
    t.current_field_index ≤ t.field_elements.length ∧
    t.current_group_index ≤ t.group_elements.length :=
  cursors_in_bounds_run ops fresh t (by simp [cursors_in_bounds, fresh]) hrun

/-- A run using every operation: initialise with challenges [10, 20], send a
field and a group element, take a challenge, reset, receive both elements. -/
theorem cursors_in_bounds_of_reachable_witness :
    run [Op.initialize_ [10, 20] [] [], Op.send_to_verifier asUint256 "a" (.other 5),
         Op.send_to_verifier asUint256 "b" (.AffineElement (1, 2)),
         Op.get_challenge asUint256 "c", Op.reset_indices,
         Op.receive_from_prover asUint256 asUint256 "d" .ScalarField,
         Op.receive_from_prover asUint256 asUint256 "e" .AffineElement]
        (fresh : MockTranscript (Nat × Nat))
      = some { challenges := [10, 20], group_elements := [(1, 2)], field_elements := [5],
               current_challenge_index := 0, current_field_index := 1,
               current_group_index := 1 } ∧
    (0 ≤ [(10 : uint256_t), 20].length ∧ 1 ≤ [(5 : uint256_t)].length ∧
      1 ≤ [((1 : Nat), (2 : Nat))].length) :=
  ⟨rfl, cursors_in_bounds_of_reachable
    [Op.initialize_ [10, 20] [] [], Op.send_to_verifier asUint256 "a" (.other 5),
     Op.send_to_verifier asUint256 "b" (.AffineElement (1, 2)),
     Op.get_challenge asUint256 "c", Op.reset_indices,
     Op.receive_from_prover asUint256 asUint256 "d" .ScalarField,
     Op.receive_from_prover asUint256 asUint256 "e" .AffineElement]
    { challenges := [10, 20], group_elements := [(1, 2)], field_elements := [5],
      current_challenge_index := 0, current_field_index := 1, current_group_index := 1 }
    rfl⟩

/-! ## C11: the logs are append-only outside `initialize` -/

/-- What a successful call other than `initialize` leaves in place: the
challenges, both logs as prefixes of the new logs, and a group cursor that has
not decreased. -/
theorem step_frame (op : Op G) (t t1 : MockTranscript G) (hop : op.isInit = false)
    (hstep : op.step t = some t1) :
    t1.challenges = t.challenges ∧
    t.group_elements <+: t1.group_elements ∧
    t.field_elements <+: t1.field_elements ∧
    t.current_group_index ≤ t1.current_group_index := by
  cases op with
  | initialize_ cs gs fs => simp [Op.isInit] at hop
  | reset_indices =>
    simp only [Op.step, Option.some.injEq] at hstep
    subst hstep
    simp [reset_indices]
  | send_to_verifier cast label element =>
    simp only [Op.step, Option.some.injEq] at hstep
    subst hstep
    cases element <;> simp [send_to_verifier]
  | get_challenge cast label =>
    simp only [Op.step, get_challenge_eq] at hstep
    split at hstep
    · simp only [Option.map_some', Option.some.injEq] at hstep
      subst hstep
      simp
    · simp at hstep
  | receive_from_prover toFr toFq label ty =>
    cases ty <;>
      simp only [Op.step, receive_scalar_eq, receive_base_eq, receive_group_eq] at hstep <;>
      split at hstep
    all_goals first
      | (simp only [Option.map_some', Option.some.injEq] at hstep
         subst hstep
         simp)
      | simp at hstep

/-- The logs are touched by `send_to_verifier` only: any other successful call
that is not `initialize` leaves both logs as they were. -/
theorem step_logs_of_not_send (op : Op G) (t t1 : MockTranscript G) (hop : op.isInit = false)
    (hsend : op.isSend = false) (hstep : op.step t = some t1) :
    t1.group_elements = t.group_elements ∧ t1.field_elements = t.field_elements := by
  cases op with
  | initialize_ cs gs fs => simp [Op.isInit] at hop
  | reset_indices =>
    simp only [Op.step, Option.some.injEq] at hstep
    subst hstep
    simp [reset_indices]
  | send_to_verifier cast label element => simp [Op.isSend] at hsend
  | get_challenge cast label =>
    simp only [Op.step, get_challenge_eq] at hstep
    split at hstep
    · simp only [Option.map_some', Option.some.injEq] at hstep
      subst hstep
      simp
    · simp at hstep
  | receive_from_prover toFr toFq label ty =>
    cases ty <;>
      simp only [Op.step, receive_scalar_eq, receive_base_eq, receive_group_eq] at hstep <;>
      split at hstep
    all_goals first
      | (simp only [Option.map_some', Option.some.injEq] at hstep
         subst hstep
         simp)
      | simp at hstep

/-- C11. For every transcript state and every successful call other than
`initialize`, the old group log is a prefix of the new one, the old field log
is a prefix of the new one and the challenges are unchanged; a call that is
not `send_to_verifier` leaves both logs as they were, and `send_to_verifier`
lengthens exactly one of the two logs, by exactly one entry, leaving the
other as it was. -/
theorem logs_append_only (op : Op G) (t t1 : MockTranscript G) (hop : op.isInit = false)
    (hstep : op.step t = some t1) :
    t.group_elements <+: t1.group_elements ∧
    t.field_elements <+: t1.field_elements ∧
    t1.challenges = t.challenges ∧
    (op.isSend = false →
      t1.group_elements = t.group_elements ∧ t1.field_elements = t.field_elements) ∧
    (op.isSend = true →
      (t1.group_elements.length = t.group_elements.length + 1 ∧
        t1.field_elements = t.field_elements) ∨
      (t1.field_elements.length = t.field_elements.length + 1 ∧
        t1.group_elements = t.group_elements)) := by
  obtain ⟨hc, hg, hf, _⟩ := step_frame op t t1 hop hstep
  refine ⟨hg, hf, hc, fun hsend => step_logs_of_not_send op t t1 hop hsend hstep, ?_⟩
  intro hsend
  cases op with
  | send_to_verifier cast label element =>
    simp only [Op.step, Option.some.injEq] at hstep
    subst hstep
    cases element <;> simp [send_to_verifier]
  | initialize_ cs gs fs => simp [Op.isSend] at hsend
  | reset_indices => simp [Op.isSend] at hsend
  | get_challenge cast label => simp [Op.isSend] at hsend
  | receive_from_prover toFr toFq label ty => simp [Op.isSend] at hsend

/-- Sending the field value 5 to a transcript holding field log [7] and group
log [(1, 2)]: the field log becomes [7, 5], the group log stays [(1, 2)]. -/
theorem logs_append_only_witness :
    (Op.send_to_verifier asUint256 "a" (.other 5) : Op (Nat × Nat)).isInit = false ∧
    (Op.send_to_verifier asUint256 "a" (.other 5) : Op (Nat × Nat)).step
        { field_elements := [7], group_elements := [(1, 2)] }
      = some { field_elements := [7, 5], group_elements := [(1, 2)] } ∧
    [((1 : Nat), (2 : Nat))] <+: [(1, 2)] ∧
    [(7 : uint256_t)] <+: [7, 5] :=
  ⟨rfl, rfl,
    (logs_append_only (Op.send_to_verifier asUint256 "a" (.other 5))
      { field_elements := [7], group_elements := [(1, 2)] }
      { field_elements := [7, 5], group_elements := [(1, 2)] } rfl rfl).1,
    (logs_append_only (Op.send_to_verifier asUint256 "a" (.other 5))
      { field_elements := [7], group_elements := [(1, 2)] }
      { field_elements := [7, 5], group_elements := [(1, 2)] } rfl rfl).2.1⟩

/-! ## C12: the cursors are independent and do not decrease -/

theorem step_cursors_mono (op : Op G) (t t1 : MockTranscript G) (hop : op.isInit = false)
    (hreset : op.isReset = false) (hstep : op.step t = some t1) :
    t.current_challenge_index ≤ t1.current_challenge_index ∧
    t.current_field_index ≤ t1.current_field_index ∧
    t.current_group_index ≤ t1.current_group_index := by
  cases op with
  | initialize_ cs gs fs => simp [Op.isInit] at hop
  | reset_indices => simp [Op.isReset] at hreset
  | send_to_verifier cast label element =>
    simp only [Op.step, Option.some.injEq] at hstep
    subst hstep
    cases element <;> simp [send_to_verifier]
  | get_challenge cast label =>
    simp only [Op.step, get_challenge_eq] at hstep
    split at hstep
    · simp only [Option.map_some', Option.some.injEq] at hstep
      subst hstep
      simp
    · simp at hstep
  | receive_from_prover toFr toFq label ty =>
    cases ty <;>
      simp only [Op.step, receive_scalar_eq, receive_base_eq, receive_group_eq] at hstep <;>
      split at hstep
    all_goals first
      | (simp only [Option.map_some', Option.some.injEq] at hstep
         subst hstep
         simp)
      | simp at hstep

theorem get_challenge_cursors (cast : uint256_t → T) (label : String)
    (t t1 : MockTranscript G) (r : T) (h : get_challenge cast label t = some (r, t1)) :
    t1.current_challenge_index = t.current_challenge_index + 1 ∧
    t1.current_field_index = t.current_field_index ∧
    t1.current_group_index = t.current_group_index := by
  rw [get_challenge_eq] at h
  split at h
  · simp only [Option.some.injEq, Prod.mk.injEq] at h
    obtain ⟨_, h2⟩ := h
    subst h2
    simp
  · simp at h

theorem receive_field_cursors (toFr : uint256_t → Fr) (toFq : uint256_t → Fq)
    (label : String) (ty : FieldType) (t t1 : MockTranscript G) (r : Received G Fr Fq)
    (h : receive_from_prover toFr toFq label ty.toRecvType t = some (r, t1)) :
    t1.current_field_index = t.current_field_index + 1 ∧
    t1.current_challenge_index = t.current_challenge_index ∧
    t1.current_group_index = t.current_group_index := by
  cases ty <;>
    simp only [FieldType.toRecvType, receive_scalar_eq, receive_base_eq] at h <;>
    split at h
  all_goals first
    | (simp only [Option.some.injEq, Prod.mk.injEq] at h
       obtain ⟨_, h2⟩ := h
       subst h2
       simp)
    | simp at h

theorem receive_group_cursors (toFr : uint256_t → Fr) (toFq : uint256_t → Fq)
    (label : String) (t t1 : MockTranscript G) (r : Received G Fr Fq)
    (h : receive_from_prover toFr toFq label .AffineElement t = some (r, t1)) :
    t1.current_group_index = t.current_group_index + 1 ∧
    t1.current_challenge_index = t.current_challenge_index ∧
    t1.current_field_index = t.current_field_index := by
  rw [receive_group_eq] at h
  split at h
  · simp only [Option.some.injEq, Prod.mk.injEq] at h
    obtain ⟨_, h2⟩ := h
    subst h2
    simp
  · simp at h

theorem step_group_receive (op : Op G) (t t1 : MockTranscript G)
    (hop : op.isGroupReceive = true) (hstep : op.step t = some t1) :
    t1.current_group_index = t.current_group_index + 1 := by
  cases op with
  | receive_from_prover toFr toFq label ty =>
    cases ty
    · simp [Op.isGroupReceive] at hop
    · simp [Op.isGroupReceive] at hop
    · simp only [Op.step, Option.map_eq_some', Prod.exists, exists_eq_right] at hstep
      obtain ⟨r, hr⟩ := hstep
      exact (receive_group_cursors toFr toFq label t t1 r hr).1
  | initialize_ cs gs fs => simp [Op.isGroupReceive] at hop
  | reset_indices => simp [Op.isGroupReceive] at hop
  | send_to_verifier cast label element => simp [Op.isGroupReceive] at hop
  | get_challenge cast label => simp [Op.isGroupReceive] at hop

theorem run_group_index_mono :
    ∀ (ops : List (Op G)) (t t1 : MockTranscript G),
      (∀ op ∈ ops, op.isInit = false) → run ops t = some t1 →
      t.current_group_index ≤ t1.current_group_index
  | [], t, t1, _, hrun => by
    simp only [run, Option.some.injEq] at hrun
    subst hrun
    exact Nat.le_refl _
  | op :: ops, t, t1, hops, hrun => by
    rw [run] at hrun
    split at hrun
    · simp at hrun
    · next t2 hstep =>
      have h1 := (step_frame op t t2 (hops op (List.mem_cons_self _ _)) hstep).2.2.2
      have h2 := run_group_index_mono ops t2 t1
        (fun o ho => hops o (List.mem_cons_of_mem _ ho)) hrun
      exact Nat.le_trans h1 h2

theorem group_reads_increasing :
    ∀ (ops : List (Op G)) (t : MockTranscript G),
      (∀ op ∈ ops, op.isInit = false) →
      (∀ p ∈ group_reads ops t, t.current_group_index ≤ p) ∧
      (group_reads ops t).Pairwise (fun p q => p < q)
  | [], t, _ => by simp [group_reads]
  | op :: ops, t, hops => by
    rw [group_reads]
    split
    · simp
    · next t2 hstep =>
      have hmono := (step_frame op t t2 (hops op (List.mem_cons_self _ _)) hstep).2.2.2
      obtain ⟨ih1, ih2⟩ := group_reads_increasing ops t2
        (fun o ho => hops o (List.mem_cons_of_mem _ ho))
      by_cases hg : op.isGroupReceive = true
      · have hinc := step_group_receive op t t2 hg hstep
        simp only [hg, if_true, List.mem_cons, forall_eq_or_imp, List.pairwise_cons]
        refine ⟨⟨Nat.le_refl _, fun p hp => ?_⟩, fun p hp => ?_, ih2⟩
        · have := ih1 p hp
          omega
        · have := ih1 p hp
          omega
      · simp only [hg]
        refine ⟨fun p hp => ?_, ih2⟩
        have := ih1 p hp
        omega

/-- C12. (1) A successful `send_to_verifier`, `get_challenge` or
`receive_from_prover` decreases none of the three cursors.  (2) A successful
`get_challenge` advances the challenge cursor by one and leaves the other two
cursors alone; a successful field receive does so for the field cursor, a
successful group receive for the group cursor.  (3) No successful call other
than `initialize` decreases the group cursor, so over a sequence of calls
without `initialize` the group cursor does not decrease and the positions of
the group log returned by the group receives are strictly increasing: each
position is returned at most once. -/
theorem cursors_independent_and_monotone (G : Type) :
    (∀ (op : Op G) (t t1 : MockTranscript G), op.isInit = false → op.isReset = false →
      op.step t = some t1 →
      t.current_challenge_index ≤ t1.current_challenge_index ∧
      t.current_field_index ≤ t1.current_field_index ∧
      t.current_group_index ≤ t1.current_group_index) ∧
    (∀ (T : Type) (cast : uint256_t → T) (label : String) (t t1 : MockTranscript G) (r : T),
      get_challenge cast label t = some (r, t1) →
      t1.current_challenge_index = t.current_challenge_index + 1 ∧
      t1.current_field_index = t.current_field_index ∧
      t1.current_group_index = t.current_group_index) ∧
    (∀ (Fr Fq : Type) (toFr : uint256_t → Fr) (toFq : uint256_t → Fq) (label : String)
      (ty : FieldType) (t t1 : MockTranscript G) (r : Received G Fr Fq),
      receive_from_prover toFr toFq label ty.toRecvType t = some (r, t1) →
      t1.current_field_index = t.current_field_index + 1 ∧
      t1.current_challenge_index = t.current_challenge_index ∧
      t1.current_group_index = t.current_group_index) ∧
    (∀ (Fr Fq : Type) (toFr : uint256_t → Fr) (toFq : uint256_t → Fq) (label : String)
      (t t1 : MockTranscript G) (r : Received G Fr Fq),
      receive_from_prover toFr toFq label .AffineElement t = some (r, t1) →
      t1.current_group_index = t.current_group_index + 1 ∧
      t1.current_challenge_index = t.current_challenge_index ∧
      t1.current_field_index = t.current_field_index) ∧
    (∀ (op : Op G) (t t1 : MockTranscript G), op.isInit = false → op.step t = some t1 →
      t.current_group_index ≤ t1.current_group_index) ∧
    (∀ (ops : List (Op G)) (t t1 : MockTranscript G), (∀ op ∈ ops, op.isInit = false) →
      run ops t = some t1 →
      t.current_group_index ≤ t1.current_group_index ∧
      (group_reads ops t).Pairwise (fun p q => p < q) ∧ (group_reads ops t).Nodup) := by
  refine ⟨step_cursors_mono, fun T cast label t t1 r h => get_challenge_cursors cast label t t1 r h,
    fun Fr Fq toFr toFq label ty t t1 r h => receive_field_cursors toFr toFq label ty t t1 r h,
    fun Fr Fq toFr toFq label t t1 r h => receive_group_cursors toFr toFq label t t1 r h,
    fun op t t1 hop hstep => (step_frame op t t1 hop hstep).2.2.2, ?_⟩
  intro ops t t1 hops hrun
  have hp := (group_reads_increasing ops t hops).2
  exact ⟨run_group_index_mono ops t t1 hops hrun, hp, hp.imp (fun h => Nat.ne_of_lt h)⟩

/-- Two group elements are sent, one is received, `reset_indices` is called
and a second one is received: the group cursor ends at 2 and the two receives
read positions 0 and 1 of the group log. -/
theorem cursors_independent_and_monotone_witness :
    (∀ op ∈ [Op.send_to_verifier asUint256 "a" (.AffineElement (1, 2)),
        Op.send_to_verifier asUint256 "b" (.AffineElement (3, 4)),
        Op.receive_from_prover asUint256 asUint256 "c" .AffineElement, Op.reset_indices,
        Op.receive_from_prover asUint256 asUint256 "d" .AffineElement],
      op.isInit = false) ∧
    run [Op.send_to_verifier asUint256 "a" (.AffineElement (1, 2)),
        Op.send_to_verifier asUint256 "b" (.AffineElement (3, 4)),
        Op.receive_from_prover asUint256 asUint256 "c" .AffineElement, Op.reset_indices,
        Op.receive_from_prover asUint256 asUint256 "d" .AffineElement]
        (fresh : MockTranscript (Nat × Nat))
      = some { group_elements := [(1, 2), (3, 4)], current_group_index := 2 } ∧
    group_reads [Op.send_to_verifier asUint256 "a" (.AffineElement (1, 2)),
        Op.send_to_verifier asUint256 "b" (.AffineElement (3, 4)),
        Op.receive_from_prover asUint256 asUint256 "c" .AffineElement, Op.reset_indices,
        Op.receive_from_prover asUint256 asUint256 "d" .AffineElement]
        (fresh : MockTranscript (Nat × Nat)) = [0, 1] ∧
    (group_reads [Op.send_to_verifier asUint256 "a" (.AffineElement (1, 2)),
        Op.send_to_verifier asUint256 "b" (.AffineElement (3, 4)),
        Op.receive_from_prover asUint256 asUint256 "c" .AffineElement, Op.reset_indices,
        Op.receive_from_prover asUint256 asUint256 "d" .AffineElement]
        (fresh : MockTranscript (Nat × Nat))).Nodup :=
  ⟨by simp [Op.isInit], rfl, rfl,
    ((cursors_independent_and_monotone (Nat × Nat)).2.2.2.2.2
      [Op.send_to_verifier asUint256 "a" (.AffineElement (1, 2)),
        Op.send_to_verifier asUint256 "b" (.AffineElement (3, 4)),
        Op.receive_from_prover asUint256 asUint256 "c" .AffineElement, Op.reset_indices,
        Op.receive_from_prover asUint256 asUint256 "d" .AffineElement]
      fresh { group_elements := [(1, 2), (3, 4)], current_group_index := 2 }
      (by simp [Op.isInit]) rfl).2.2⟩

/-! ## C13: both roles see the same challenges -/

theorem run_challenges :
    ∀ (ops : List (Op G)) (t t1 : MockTranscript G),
      (∀ op ∈ ops, op.isInit = false) → run ops t = some t1 →
      t1.challenges = t.challenges
  | [], t, t1, _, hrun => by
    simp only [run, Option.some.injEq] at hrun
    subst hrun
    rfl
  | op :: ops, t, t1, hops, hrun => by
    rw [run] at hrun
    split at hrun
    · simp at hrun
    · next t2 hstep =>
      have h1 := (step_frame op t t2 (hops op (List.mem_cons_self _ _)) hstep).1
      have h2 := run_challenges ops t2 t1
        (fun o ho => hops o (List.mem_cons_of_mem _ ho)) hrun
      rw [h2, h1]

/-- C13. After `initialize(cs, gs, fs)`, let any finite sequence of successful
`send_to_verifier`, `get_challenge`, `receive_from_prover` and `reset_indices`
calls run.  A following `reset_indices` makes the next `cs.size()`
`get_challenge` calls succeed and return the conversions of `cs[0], cs[1],
...` in order, the same values the same calls return right after
`initialize`. -/
theorem challenges_replay_after_reset_indices (cast : uint256_t → T) (cs : List uint256_t)
    (gs : List G) (fs : List uint256_t) (s t : MockTranscript G) (ops : List (Op G))
    (labels : List String) (hops : ∀ op ∈ ops, op.isInit = false)
    (hrun : run ops (initialize_ cs gs fs s) = some t) (hlen : labels.length = cs.length) :
    (get_challenges cast labels (reset_indices t)).map Prod.fst = some (cs.map cast) ∧
    (get_challenges cast labels (initialize_ cs gs fs s)).map Prod.fst = some (cs.map cast) := by
  have hch : t.challenges = cs := by
    rw [run_challenges ops _ t hops hrun]
    rfl
  constructor
  · have h := get_challenges_of_drop cast labels cs [] (reset_indices t) hlen
      (by simp [reset_indices, hch])
    rw [h]
    rfl
  · have h := get_challenges_of_drop cast labels cs [] (initialize_ cs gs fs s) hlen
      (by simp [initialize_])
    rw [h]
    rfl

/-- After `initialize([10, 20])` the first pass takes one challenge, sends a
field element and receives it back after a reset; a further `reset_indices`
makes two `get_challenge` calls return 10 and 20 again. -/
theorem challenges_replay_after_reset_indices_witness :
    (∀ op ∈ [Op.get_challenge asUint256 "c", Op.send_to_verifier asUint256 "a" (.other 5),
        Op.reset_indices, Op.receive_from_prover asUint256 asUint256 "d" .ScalarField,
        Op.get_challenge asUint256 "e"],
      (op : Op (Nat × Nat)).isInit = false) ∧
    run [Op.get_challenge asUint256 "c", Op.send_to_verifier asUint256 "a" (.other 5),
        Op.reset_indices, Op.receive_from_prover asUint256 asUint256 "d" .ScalarField,
        Op.get_challenge asUint256 "e"]
        (initialize_ [10, 20] [] [] (fresh : MockTranscript (Nat × Nat)))
      = some { challenges := [10, 20], field_elements := [5], current_challenge_index := 1,
               current_field_index := 1 } ∧
    ["x", "y"].length = [(10 : uint256_t), 20].length ∧
    (get_challenges asUint256 ["x", "y"]
        (reset_indices
          ({ challenges := [10, 20], field_elements := [5],
             current_challenge_index := 1, current_field_index := 1 } :
            MockTranscript (Nat × Nat)))).map Prod.fst
      = some ([10, 20].map asUint256) :=
  ⟨by simp [Op.isInit], rfl, rfl,
    (challenges_replay_after_reset_indices asUint256 [10, 20] [] [] fresh
      { challenges := [10, 20], field_elements := [5], current_challenge_index := 1,
        current_field_index := 1 }
      [Op.get_challenge asUint256 "c", Op.send_to_verifier asUint256 "a" (.other 5),
        Op.reset_indices, Op.receive_from_prover asUint256 asUint256 "d" .ScalarField,
        Op.get_challenge asUint256 "e"]
      ["x", "y"] (by simp [Op.isInit]) rfl rfl).1⟩

/-! ## C14: sending and receiving interleave -/

/-- C14. (1) If the field log is not exhausted, sending a field value and then
receiving a field element returns the same value and ends in the same state
as receiving first and sending second; (2) likewise for the group log and a
group element.  (3)-(5) A send on one channel commutes with a receive on the
other channel and with `get_challenge`, whether that call succeeds or
fails. -/
theorem send_receive_commute {T2 : Type} (cast : T → uint256_t) (cast2 : uint256_t → T2)
    (toFr : uint256_t → Fr) (toFq : uint256_t → Fq) (ls lr : String) (t : MockTranscript G) :
    (∀ (x : T) (ty : FieldType), t.current_field_index < t.field_elements.length →
      ∃ (r : Received G Fr Fq) (t1 : MockTranscript G),
        receive_from_prover toFr toFq lr ty.toRecvType t = some (r, t1) ∧
        receive_from_prover toFr toFq lr ty.toRecvType (send_to_verifier cast ls (.other x) t)
          = some (r, send_to_verifier cast ls (.other x) t1)) ∧
    (∀ g : G, t.current_group_index < t.group_elements.length →
      ∃ (r : Received G Fr Fq) (t1 : MockTranscript G),
        receive_from_prover toFr toFq lr .AffineElement t = some (r, t1) ∧
        receive_from_prover toFr toFq lr .AffineElement
            (send_to_verifier cast ls (.AffineElement g) t)
          = some (r, send_to_verifier cast ls (.AffineElement g) t1)) ∧
    (∀ (g : G) (ty : FieldType),
      receive_from_prover toFr toFq lr ty.toRecvType
          (send_to_verifier cast ls (.AffineElement g) t)
        = (receive_from_prover toFr toFq lr ty.toRecvType t).map
            fun p => (p.1, send_to_verifier cast ls (.AffineElement g) p.2)) ∧
    (∀ x : T,
      receive_from_prover toFr toFq lr .AffineElement (send_to_verifier cast ls (.other x) t)
        = (receive_from_prover toFr toFq lr .AffineElement t).map
            fun p => (p.1, send_to_verifier cast ls (.other x) p.2)) ∧
    (∀ element : Element G T,
      get_challenge cast2 lr (send_to_verifier cast ls element t)
        = (get_challenge cast2 lr t).map
            fun p => (p.1, send_to_verifier cast ls element p.2)) := by
  refine ⟨?_, ?_, ?_, ?_, ?_⟩
  · intro x ty h
    have h1 : t.current_field_index < t.field_elements.length + 1 := Nat.lt_succ_of_lt h
    cases ty
    · refine ⟨_, _, by rw [FieldType.toRecvType, receive_scalar_eq, dif_pos h], ?_⟩
      simp [FieldType.toRecvType, receive_scalar_eq, send_to_verifier, h, h1,
        List.getElem_append_left]
    · refine ⟨_, _, by rw [FieldType.toRecvType, receive_base_eq, dif_pos h], ?_⟩
      simp [FieldType.toRecvType, receive_base_eq, send_to_verifier, h, h1,
        List.getElem_append_left]
  · intro g h
    have h1 : t.current_group_index < t.group_elements.length + 1 := Nat.lt_succ_of_lt h
    refine ⟨_, _, by rw [receive_group_eq, dif_pos h], ?_⟩
    simp [receive_group_eq, send_to_verifier, h, h1, List.getElem_append_left]
  · intro g ty
    cases ty
    · simp only [FieldType.toRecvType, receive_scalar_eq, send_to_verifier]
      split <;> rfl
    · simp only [FieldType.toRecvType, receive_base_eq, send_to_verifier]
      split <;> rfl
  · intro x
    simp only [receive_group_eq, send_to_verifier]
    split <;> rfl
  · intro element
    cases element
    · simp only [get_challenge_eq, send_to_verifier]
      split <;> rfl
    · simp only [get_challenge_eq, send_to_verifier]
      split <;> rfl

/-- A transcript holding the unread field entry 7: sending 5 and then
receiving, or receiving and then sending 5, both return 7 and end with field
log [7, 5] and field cursor 1. -/
theorem send_receive_commute_witness :
    ({ field_elements := [7] } : MockTranscript (Nat × Nat)).current_field_index
      < ({ field_elements := [7] } : MockTranscript (Nat × Nat)).field_elements.length ∧
    receive_from_prover asUint256 asUint256 "r" .ScalarField
        ({ field_elements := [7] } : MockTranscript (Nat × Nat))
      = some (.ScalarField 7, { field_elements := [7], current_field_index := 1 }) ∧
    send_to_verifier asUint256 "s" (.other 5)
        ({ field_elements := [7], current_field_index := 1 } : MockTranscript (Nat × Nat))
      = { field_elements := [7, 5], current_field_index := 1 } ∧
    ∃ (r : Received (Nat × Nat) uint256_t uint256_t) (t1 : MockTranscript (Nat × Nat)),
      receive_from_prover asUint256 asUint256 "r" FieldType.ScalarField.toRecvType
          { field_elements := [7] } = some (r, t1) ∧
      receive_from_prover asUint256 asUint256 "r" FieldType.ScalarField.toRecvType
          (send_to_verifier asUint256 "s" (.other 5) { field_elements := [7] })
        = some (r, send_to_verifier asUint256 "s" (.other 5) t1) :=
  ⟨by decide, rfl, rfl,
    (send_receive_commute asUint256 asUint256 asUint256 asUint256 "s" "r"
      ({ field_elements := [7] } : MockTranscript (Nat × Nat))).1 5 .ScalarField (by decide)⟩

/-! ## C15: one field log for every field type -/

/-- C15. (1) A non-group value of any type is appended, after its conversion
to `uint256_t`, to the one field log, whatever its type.  (2) A receive
requested as scalar-field element and one requested as base-field element
fail together and leave the same successor state.  (3) When the field log is
not exhausted both read the same stored entry at the field cursor and differ
only in the conversion applied to it.  (4) In particular a value sent last
under one type is read back under either field type from the same entry. -/
theorem field_log_shared {T1 T2 : Type} (cast1 : T1 → uint256_t) (cast2 : T2 → uint256_t)
    (toFr : uint256_t → Fr) (toFq : uint256_t → Fq) (l1 l2 : String) (x1 : T1) (x2 : T2)
    (t : MockTranscript G) :
    (send_to_verifier cast1 l1 (.other x1) t
        = { t with field_elements := t.field_elements ++ [cast1 x1] } ∧
      send_to_verifier cast2 l2 (.other x2) t
        = { t with field_elements := t.field_elements ++ [cast2 x2] }) ∧
    ((receive_from_prover toFr toFq l1 .ScalarField t = none
        ↔ receive_from_prover toFr toFq l2 .BaseField t = none) ∧
      (receive_from_prover toFr toFq l1 .ScalarField t).map Prod.snd
        = (receive_from_prover toFr toFq l2 .BaseField t).map Prod.snd) ∧
    (∀ h : t.current_field_index < t.field_elements.length,
      receive_from_prover toFr toFq l1 .ScalarField t
        = some (.ScalarField (toFr t.field_elements[t.current_field_index]),
            { t with current_field_index := t.current_field_index + 1 }) ∧
      receive_from_prover toFr toFq l2 .BaseField t
        = some (.BaseField (toFq t.field_elements[t.current_field_index]),
            { t with current_field_index := t.current_field_index + 1 })) ∧
    (t.current_field_index = t.field_elements.length →
      receive_from_prover toFr toFq l1 .ScalarField (send_to_verifier cast1 l1 (.other x1) t)
        = some (.ScalarField (toFr (cast1 x1)),
            { t with field_elements := t.field_elements ++ [cast1 x1]
                     current_field_index := t.current_field_index + 1 }) ∧
      receive_from_prover toFr toFq l2 .BaseField (send_to_verifier cast1 l1 (.other x1) t)
        = some (.BaseField (toFq (cast1 x1)),
            { t with field_elements := t.field_elements ++ [cast1 x1]
                     current_field_index := t.current_field_index + 1 })) := by
  have hnone := receive_from_prover_eq_none_iff toFr toFq l1 t
  have hnone2 := receive_from_prover_eq_none_iff toFr toFq l2 t
  refine ⟨⟨rfl, rfl⟩, ⟨by rw [hnone.1, hnone2.2.1], ?_⟩, ?_, ?_⟩
  · simp only [receive_scalar_eq, receive_base_eq]
    split <;> rfl
  · intro h
    simp [receive_scalar_eq, receive_base_eq, h]
  · intro h
    simp [receive_scalar_eq, receive_base_eq, send_to_verifier, h]

/-- A scalar 5 is sent to a fresh transcript as `uint256_t`; requested as
scalar-field or as base-field element, the receive reads the same entry 5 and
leaves the same state. -/
theorem field_log_shared_witness :
    (fresh : MockTranscript (Nat × Nat)).current_field_index
      = (fresh : MockTranscript (Nat × Nat)).field_elements.length ∧
    receive_from_prover asUint256 (fun u : uint256_t => u.val) "r" .ScalarField
        (send_to_verifier asUint256 "r" (.other 5) (fresh : MockTranscript (Nat × Nat)))
      = some (.ScalarField 5, { field_elements := [5], current_field_index := 1 }) ∧
    receive_from_prover asUint256 (fun u : uint256_t => u.val) "q" .BaseField
        (send_to_verifier asUint256 "r" (.other 5) (fresh : MockTranscript (Nat × Nat)))
      = some (.BaseField (5 : uint256_t).val,
          { field_elements := [5], current_field_index := 1 }) :=
  ⟨rfl,
    (field_log_shared asUint256 asUint256 asUint256 (fun u : uint256_t => u.val) "r" "q" 5 5
      (fresh : MockTranscript (Nat × Nat))).2.2.2 rfl⟩

end MockTranscript

end bb
